import Mathlib

/-!
Shallow embedding of the listky core (src/core/auth.py, src/core/privacy.py,
src/core/plugins.py, src/core/api/init) : credential hashing, progressive
lockout rate limiting, in-memory sessions, privacy-preserving view tracking,
trending aggregation, account orchestration and the plugin event system,
together with theorems checking the design documentation against this
embedding.  Timestamps are modelled as natural numbers counting seconds,
view dates as natural numbers counting days, and the relational store as
lists of records.  Exceptions are modelled with Except, and the external
cryptographic hashes as injective tagging functions.
-/

namespace Listky

/-- Server-wide secret salt (src/core/auth.py, PIN_SALT default). -/
def PIN_SALT : String := "default_development_salt_change_in_production"

/-- Models hashlib.sha256(ip + PIN_SALT).hexdigest() from src/core/privacy.py
as an injective tagging function: the claims depend only on the hash being a
deterministic function of the input. -/
def hash_ip (ip : String) : String := "sha256:" ++ ip ++ PIN_SALT

/-- Models bcrypt.hashpw(pin + PIN_SALT) from src/core/auth.py as an
injective tagging function. -/
def hash_pin (pin : String) : String := "bcrypt:" ++ pin ++ PIN_SALT

/-- Models bcrypt.checkpw from src/core/auth.py: verification succeeds
exactly on the hash of the same PIN. -/
def verify_pin (pin hashed : String) : Bool := hashed == hash_pin pin

/-- Models str.lower() as applied to usernames. -/
def lower (s : String) : String := ⟨s.data.map Char.toLower⟩

/-- One character of the class [a-zA-Z0-9]. -/
def is_alnum_char (c : Char) : Bool :=
  (('a' ≤ c && c ≤ 'z') || ('A' ≤ c && c ≤ 'Z') || ('0' ≤ c && c ≤ '9'))

/-- One character of the class [0-9]. -/
def is_digit_char (c : Char) : Bool := '0' ≤ c && c ≤ '9'

/-- Username validation, regex ^[a-zA-Z0-9]{3,20}$ (src/core/auth.py). -/
def is_valid_username (s : String) : Bool :=
  3 ≤ s.data.length && s.data.length ≤ 20 && s.data.all is_alnum_char

/-- PIN validation, regex of exactly six digits (src/core/auth.py). -/
def is_valid_pin (s : String) : Bool :=
  s.data.length == 6 && s.data.all is_digit_char

/-- Slug validation, regex ^[a-zA-Z0-9-]{1,50}$ (src/core/auth.py). -/
def is_valid_slug (s : String) : Bool :=
  1 ≤ s.data.length && s.data.length ≤ 50 &&
    s.data.all (fun c => is_alnum_char c || c == '-')

/-- A row of the users relation (src/core/database.py). -/
structure UserRec where
  username : String
  pin_hash : String
  last_ip_hash : Option String
  failed_attempts : Nat
  last_fail : Option Nat
deriving DecidableEq, Repr

/-- A row of the lists relation (src/core/database.py). -/
structure ListRec where
  id : Nat
  username : String
  slug : String
  title : String
  content : String
  is_public : Bool
  created_at : Nat
  updated_at : Nat
deriving DecidableEq, Repr

/-- A row of the views relation (src/core/database.py); the triple
(list_id, view_date, ip_hash) is the composite primary key. -/
structure ViewRec where
  list_id : Nat
  view_date : Nat
  ip_hash : String
deriving DecidableEq, Repr

/-- The relational store: rows are kept in insertion order, which for
lists coincides with ascending autoincrement id order. -/
structure DB where
  users : List UserRec
  lists : List ListRec
  views : List ViewRec
deriving DecidableEq, Repr

/-- The SELECT ... FROM users WHERE username = ? lookup. -/
def find_user (username : String) (db : DB) : Option UserRec :=
  db.users.find? (fun u => u.username == username)

/-- Progressive lockout step function in minutes (src/core/auth.py lines
96-102): 8 or more failures give 60 minutes, 6 or more give 15, else 5. -/
def lockout_minutes (failed_attempts : Nat) : Nat :=
  if 8 ≤ failed_attempts then 60 else if 6 ≤ failed_attempts then 15 else 5

/-- check_rate_limit from src/core/auth.py lines 76-104.  Returns true when
the login attempt is allowed.  now is the current time in seconds; the
Python comparison now - last_fail > timedelta(minutes=m) becomes
m * 60 < now - last_fail (truncated subtraction agrees with the Python
order comparison because the window is positive). -/
def check_rate_limit (username : String) (db : DB) (now : Nat) : Bool :=
  match find_user username db with
  | none => true
  | some u =>
    if u.failed_attempts < 4 then true
    else
      match u.last_fail with
      | none => true
      | some last_fail =>
          decide (lockout_minutes u.failed_attempts * 60 < now - last_fail)

example : check_rate_limit "a" ⟨[⟨"a", "h", none, 5, some 0⟩], [], []⟩ 301 = true := by decide
example : check_rate_limit "a" ⟨[⟨"a", "h", none, 5, some 0⟩], [], []⟩ 300 = false := by decide
example : check_rate_limit "a" ⟨[⟨"a", "h", none, 9, none⟩], [], []⟩ 0 = true := by decide

/-- Seconds in the 24 hour session lifetime of src/core/auth.py. -/
def session_lifetime : Nat := 24 * 3600

/-- Value stored under a session token (src/core/auth.py active_sessions). -/
structure SessionData where
  username : String
  expires : Nat
deriving DecidableEq, Repr

/-- The process-wide session dictionary, as an association list in
insertion order (a Python dict keeps insertion order). -/
abbrev SessionMap := List (String × SessionData)

/-- Python dict assignment d[k] = v: overwrite in place when the key is
present, append otherwise. -/
def dict_set (k : String) (v : SessionData) (m : SessionMap) : SessionMap :=
  if m.any (fun p => p.1 == k) then
    m.map (fun p => if p.1 == k then (k, v) else p)
  else m ++ [(k, v)]

/-- create_session from src/core/auth.py lines 47-55.  The random
secrets.token_urlsafe(32) value is passed in as the token argument; the
function records expiry now + 24h and returns the token with the updated
map. -/
def create_session (username token : String) (now : Nat) (m : SessionMap) :
    String × SessionMap :=
  (token, dict_set token ⟨username, now + session_lifetime⟩ m)

/-- get_session_user from src/core/auth.py lines 57-69.  The cookie value
is passed as an Option (none when the cookie is absent); an empty string is
falsy in Python and treated like an absent cookie.  Returns the resolved
username together with the map after the lazy eviction of an expired
entry. -/
def get_session_user (token : Option String) (now : Nat) (m : SessionMap) :
    Option String × SessionMap :=
  match token with
  | none => (none, m)
  | some t =>
    if t == "" then (none, m)
    else
      match m.find? (fun p => p.1 == t) with
      | none => (none, m)
      | some p =>
        if p.2.expires < now then
          (none, m.filter (fun q => !(q.1 == t)))
        else (some p.2.username, m)

/-- clear_session from src/core/auth.py lines 71-74. -/
def clear_session (token : String) (m : SessionMap) : SessionMap :=
  if m.any (fun p => p.1 == token) then m.filter (fun q => !(q.1 == token))
  else m

/-- The INSERT OR IGNORE INTO views statement: a no-op when the composite
primary key (list_id, view_date, ip_hash) is already present, an append
otherwise. -/
def insert_or_ignore_view (v : ViewRec) (views : List ViewRec) : List ViewRec :=
  if v ∈ views then views else views ++ [v]

/-- The body of the try block of track_list_view: the storage layer may
raise (storage_ok = false models an exception from the INSERT or the
commit), otherwise the insert-or-ignore result is returned. -/
def track_view_body (v : ViewRec) (storage_ok : Bool) (views : List ViewRec) :
    Except Unit (List ViewRec) :=
  if storage_ok then .ok (insert_or_ignore_view v views) else .error ()

/-- track_list_view from src/core/privacy.py lines 20-40.  today is the
current calendar day; the client IP is hashed, the row inserted with OR
IGNORE, and any storage exception is swallowed, returning false.  The
function returns true whenever the try block completes. -/
def track_list_view (list_id : Nat) (client_ip : String) (today : Nat)
    (storage_ok : Bool) (db : DB) : Bool × DB :=
  match track_view_body ⟨list_id, today, hash_ip client_ip⟩ storage_ok db.views with
  | .ok views => (true, { db with views := views })
  | .error _ => (false, db)

/-- A row of the trending query result. -/
structure TrendingRow where
  username : String
  slug : String
  title : String
  view_count : Nat
deriving DecidableEq, Repr

/-- The WHERE clause on a view row: view_date >= today - days. -/
def in_window (today days : Nat) (v : ViewRec) : Bool :=
  decide (today - days ≤ v.view_date)

/-- The view rows joined to a given list that fall inside the window. -/
def list_window_views (lid today days : Nat) (views : List ViewRec) :
    List ViewRec :=
  views.filter (fun v => v.list_id == lid && in_window today days v)

/-- COUNT(DISTINCT ip_hash) over a bag of view rows. -/
def distinct_ip_count (vs : List ViewRec) : Nat :=
  ((vs.map (fun v => v.ip_hash)).dedup).length

/-- The SELECT row produced for one list group of the trending query. -/
def trending_row_of (db : DB) (today days : Nat) (l : ListRec) : TrendingRow :=
  ⟨l.username, l.slug, l.title,
    distinct_ip_count (list_window_views l.id today days db.views)⟩

/-- The grouping stage of get_trending_lists (src/core/privacy.py lines
42-58): the inner join keeps exactly the public lists with at least one
view row inside the window, and GROUP BY l.id emits one row per such list,
in the ascending id order of the table scan (db.lists is kept in insertion
order, which is ascending autoincrement id order). -/
def trending_groups (db : DB) (today days : Nat) : List TrendingRow :=
  ((db.lists.filter (fun l =>
      l.is_public && !(list_window_views l.id today days db.views).isEmpty)).map
    (trending_row_of db today days))

/-- Comparison used by ORDER BY view_count DESC. -/
def trending_le (a b : TrendingRow) : Prop := b.view_count ≤ a.view_count

instance : DecidableRel trending_le := fun a b =>
  inferInstanceAs (Decidable (b.view_count ≤ a.view_count))

instance : IsTotal TrendingRow trending_le :=
  ⟨fun a b => Nat.le_total b.view_count a.view_count⟩

instance : IsTrans TrendingRow trending_le :=
  ⟨fun _ _ _ hab hbc => Nat.le_trans hbc hab⟩

/-- get_trending_lists from src/core/privacy.py lines 42-58: the grouped
rows ordered by view_count descending (a stable sort, so rows with equal
counts stay in grouping order) and truncated to limit by the LIMIT
clause. -/
def get_trending_lists (db : DB) (today days limit : Nat) : List TrendingRow :=
  ((trending_groups db today days).insertionSort trending_le).take limit

/-- The typed domain failures raised by the api module
(src/core/api, exception classes and the ListkyError raises carrying
validation messages, which the design maps to InvalidInput). -/
inductive ApiError where
  | invalidInput
  | alreadyExists
  | invalidCredentials
  | rateLimited
  | notFound
  | unauthorized
deriving DecidableEq, Repr

/-- A freshly inserted users row: failed_attempts defaults to 0 and
last_fail to NULL (src/core/database.py schema defaults). -/
def mk_user (username pin_hash ip_hash : String) : UserRec :=
  ⟨username, pin_hash, some ip_hash, 0, none⟩

/-- create_user from src/core/api lines 39-72: lowercase the username,
validate the username and PIN formats, check uniqueness, then insert. -/
def create_user (username pin client_ip : String) (db : DB) :
    Except ApiError (String × DB) :=
  let uname := lower username
  if !(is_valid_username uname) then .error .invalidInput
  else if !(is_valid_pin pin) then .error .invalidInput
  else if (find_user uname db).isSome then .error .alreadyExists
  else .ok (uname,
    { db with users := db.users ++ [mk_user uname (hash_pin pin) (hash_ip client_ip)] })

/-- The UPDATE recording a failed login (src/core/api lines 91-96):
increment failed_attempts and set last_fail = now on the rows whose
username matches. -/
def record_failure (username : String) (now : Nat) (users : List UserRec) :
    List UserRec :=
  users.map (fun u =>
    if u.username == username then
      { u with failed_attempts := u.failed_attempts + 1, last_fail := some now }
    else u)

/-- The UPDATE recording a successful login (src/core/api lines 100-106):
reset failed_attempts to 0, clear last_fail and store the hashed client IP
on the rows whose username matches. -/
def record_success (username ip_hash : String) (users : List UserRec) :
    List UserRec :=
  users.map (fun u =>
    if u.username == username then
      { u with failed_attempts := 0, last_fail := none, last_ip_hash := some ip_hash }
    else u)

/-- authenticate_user from src/core/api lines 74-111: the rate limiter is
consulted first and a denial raises RateLimitError before any credential
access; a missing user or a PIN mismatch records a failure and raises
InvalidCredentialsError; a match records success, stores the hashed IP and
returns the username.  The database state accompanies the result because
the failure UPDATEs are committed before the raise. -/
def authenticate_user (username pin client_ip : String) (now : Nat) (db : DB) :
    Except ApiError String × DB :=
  let uname := lower username
  if !(check_rate_limit uname db now) then (.error .rateLimited, db)
  else
    match find_user uname db with
    | none =>
        (.error .invalidCredentials,
          { db with users := record_failure uname now db.users })
    | some u =>
        if !(verify_pin pin u.pin_hash) then
          (.error .invalidCredentials,
            { db with users := record_failure uname now db.users })
        else
          (.ok uname,
            { db with users := record_success uname (hash_ip client_ip) db.users })

/-- get_list from src/core/api lines 170-192: lookup by lowercased owner
username and slug. -/
def get_list (username slug : String) (db : DB) : Option ListRec :=
  db.lists.find? (fun l => l.username == lower username && l.slug == slug)

/-- record_list_view from src/core/api lines 277-292: gate on the list
existing and being public, then delegate to track_list_view (the plugin
hook emission carries no state in this embedding). -/
def record_list_view (username slug client_ip : String) (today : Nat)
    (storage_ok : Bool) (db : DB) : Bool × DB :=
  match get_list username slug db with
  | none => (false, db)
  | some l =>
    if !l.is_public then (false, db)
    else track_list_view l.id client_ip today storage_ok db

/-- Event data dictionaries passed to plugin hooks, as association lists of
string keys in insertion order. -/
abbrev EventData := List (String × String)

/-- Python dict.update(r): assign every key of r in order. -/
def event_update (d r : EventData) : EventData :=
  r.foldl (fun acc kv =>
    if acc.any (fun p => p.1 == kv.1) then
      acc.map (fun p => if p.1 == kv.1 then kv else p)
    else acc ++ [kv]) d

/-- A registered plugin callback: it may raise (the error case) or return
an optional dictionary of updates (none models a falsy or non-dict return
value). -/
abbrev Handler := EventData → Except Unit (Option EventData)

/-- One iteration of the emit_event loop (src/core/plugins.py lines 54-63):
call the handler inside try, merge a returned dict into the data, and on an
exception log and continue with the data unchanged. -/
def handler_step (d : EventData) (h : Handler) : EventData :=
  match h d with
  | .ok (some r) => event_update d r
  | .ok none => d
  | .error _ => d

/-- The loop of emit_event over the handler list. -/
def run_handlers (hs : List Handler) (d : EventData) : EventData :=
  hs.foldl handler_step d

/-- Instrumented loop that also counts how many handlers were invoked. -/
def run_handlers_count (hs : List Handler) (d : EventData) : EventData × Nat :=
  hs.foldl (fun acc h => (handler_step acc.1 h, acc.2 + 1)) (d, 0)

/-- The plugin registry _plugins, an association list from event name to
the handlers registered for it, in registration order. -/
abbrev Registry := List (String × List Handler)

/-- The handler list stored for an event (empty when the key is absent). -/
def registry_get (r : Registry) (event : String) : List Handler :=
  match r.find? (fun p => p.1 == event) with
  | some p => p.2
  | none => []

/-- register_hook from src/core/plugins.py lines 26-37: ensure the key
exists, then append the callback to its list. -/
def register_hook (event : String) (cb : Handler) (r : Registry) : Registry :=
  if r.any (fun p => p.1 == event) then
    r.map (fun p => if p.1 == event then (p.1, p.2 ++ [cb]) else p)
  else r ++ [(event, [cb])]

/-- emit_event from src/core/plugins.py lines 39-65: return the data
unchanged when no handler is registered for the event, otherwise run the
registered handlers in order. -/
def emit_event (r : Registry) (event : String) (d : EventData) : EventData :=
  match r.find? (fun p => p.1 == event) with
  | none => d
  | some p => run_handlers p.2 d

instance {ε α : Type} [DecidableEq ε] [DecidableEq α] : DecidableEq (Except ε α) :=
  fun x y =>
    match x, y with
    | .ok a, .ok b =>
        if h : a = b then .isTrue (by rw [h]) else .isFalse (by simp [h])
    | .error a, .error b =>
        if h : a = b then .isTrue (by rw [h]) else .isFalse (by simp [h])
    | .ok _, .error _ => .isFalse (by simp)
    | .error _, .ok _ => .isFalse (by simp)

/-- Sample user row used by several witnesses. -/
def sample_user : UserRec := mk_user "bob" (hash_pin "123456") (hash_ip "1.2.3.4")

/-- Sample database holding only sample_user. -/
def sample_db : DB := ⟨[sample_user], [], []⟩

/-- find? commutes with a map that does not change the predicate. -/
theorem find?_map_pres {α : Type} (g : α → α) (p : α → Bool)
    (hp : ∀ x, p (g x) = p x) (l : List α) :
    (l.map g).find? p = (l.find? p).map g := by
  induction l with
  | nil => rfl
  | cons x xs ih =>
    by_cases hpx : p x = true
    · rw [List.map_cons, List.find?_cons_of_pos _ ((hp x).trans hpx),
        List.find?_cons_of_pos _ hpx]
      rfl
    · have hgx : ¬ p (g x) = true := by rw [hp x]; exact hpx
      rw [List.map_cons, List.find?_cons_of_neg _ hgx,
        List.find?_cons_of_neg _ hpx, ih]

/-- dict_set stores the assigned value under the assigned key. -/
theorem find?_dict_set (k : String) (v : SessionData) (m : SessionMap) :
    (dict_set k v m).find? (fun p => p.1 == k) = some (k, v) := by
  unfold dict_set
  by_cases h : m.any (fun p => p.1 == k) = true
  · rw [if_pos h, find?_map_pres (fun p => if p.1 == k then (k, v) else p)
      (fun p => p.1 == k) ?_]
    · obtain ⟨x, hmem, hx⟩ := List.any_eq_true.mp h
      have hsome : (m.find? (fun p => p.1 == k)).isSome = true :=
        List.find?_isSome.mpr ⟨x, hmem, hx⟩
      obtain ⟨p0, hp0⟩ := Option.isSome_iff_exists.mp hsome
      have hpred : (p0.1 == k) = true := by simpa using List.find?_some hp0
      rw [hp0]
      show some (if p0.1 == k then (k, v) else p0) = some (k, v)
      rw [if_pos hpred]
    · intro x
      show ((if x.1 == k then (k, v) else x).1 == k) = (x.1 == k)
      by_cases hx : (x.1 == k) = true
      · rw [if_pos hx, hx]
        simp
      · rw [if_neg hx]
  · rw [if_neg h, List.find?_append]
    have hnone : m.find? (fun p => p.1 == k) = none := by
      rw [List.find?_eq_none]
      intro x hx hpx
      exact h (List.any_eq_true.mpr ⟨x, hx, hpx⟩)
    rw [hnone]
    simp

/-- After filtering out a key, find? no longer sees it. -/
theorem find?_filter_ne (t : String) (m : SessionMap) :
    (m.filter (fun q => !(q.1 == t))).find? (fun p => p.1 == t) = none := by
  rw [List.find?_eq_none]
  intro x hx
  have hkeep := (List.mem_filter.mp hx).2
  simp only [Bool.not_eq_eq_eq_not, Bool.not_true] at hkeep
  simp [hkeep]

/-- Appending a genuinely new element grows the dedup length by one. -/
theorem length_dedup_append_singleton {α : Type} [DecidableEq α] {l : List α}
    {a : α} (h : a ∉ l) : (l ++ [a]).dedup.length = l.dedup.length + 1 := by
  rw [(List.perm_append_singleton a l).dedup.length_eq,
    List.dedup_cons_of_not_mem h, List.length_cons]

/-- C2: check_rate_limit allows unknown users, allows below four failures,
and beyond that allows exactly when now minus the last failure exceeds the
step-function lockout window (5 minutes below six failures, 15 below
eight, 60 from eight on); immediately after a failure recorded at the
current instant it denies. -/
theorem check_rate_limit_spec (username : String) (db : DB) (now : Nat) :
    (find_user username db = none → check_rate_limit username db now = true) ∧
    (∀ u, find_user username db = some u → u.failed_attempts < 4 →
      check_rate_limit username db now = true) ∧
    (∀ u t, find_user username db = some u → 4 ≤ u.failed_attempts →
      u.last_fail = some t →
      (check_rate_limit username db now = true ↔
        lockout_minutes u.failed_attempts * 60 < now - t)) ∧
    (∀ n, n < 6 → lockout_minutes n = 5) ∧
    (∀ n, 6 ≤ n → n < 8 → lockout_minutes n = 15) ∧
    (∀ n, 8 ≤ n → lockout_minutes n = 60) ∧
    (∀ u, find_user username db = some u → 4 ≤ u.failed_attempts →
      u.last_fail = some now → check_rate_limit username db now = false) := by
  refine ⟨?_, ?_, ?_, ?_, ?_, ?_, ?_⟩
  · intro h
    simp [check_rate_limit, h]
  · intro u hu hlt
    simp [check_rate_limit, hu, hlt]
  · intro u t hu h4 ht
    simp [check_rate_limit, hu, ht, Nat.not_lt.mpr h4]
  · intro n hn
    simp only [lockout_minutes]
    rw [if_neg (by omega), if_neg (by omega)]
  · intro n h6 h8
    simp only [lockout_minutes]
    rw [if_neg (by omega), if_pos h6]
  · intro n h8
    simp only [lockout_minutes]
    rw [if_pos h8]
  · intro u hu h4 ht
    simp [check_rate_limit, hu, ht, Nat.not_lt.mpr h4, Nat.sub_self]

/-- Witness for C2 at concrete inputs. -/
theorem check_rate_limit_spec_witness :
    (check_rate_limit "a" ⟨[⟨"a", "h", none, 5, some 0⟩], [], []⟩ 301 = true ↔
      lockout_minutes 5 * 60 < 301 - 0) ∧
    lockout_minutes 5 = 5 ∧
    check_rate_limit "a" ⟨[⟨"a", "h", none, 4, some 77⟩], [], []⟩ 77 = false :=
  ⟨(check_rate_limit_spec "a" ⟨[⟨"a", "h", none, 5, some 0⟩], [], []⟩ 301).2.2.1
      ⟨"a", "h", none, 5, some 0⟩ 0 (by decide) (by decide) rfl,
   (check_rate_limit_spec "a" ⟨[], [], []⟩ 0).2.2.2.1 5 (by decide),
   (check_rate_limit_spec "a" ⟨[⟨"a", "h", none, 4, some 77⟩], [], []⟩ 77).2.2.2.2.2.2
      ⟨"a", "h", none, 4, some 77⟩ (by decide) (by decide) rfl⟩

/-- C10: a stored failure counter at or above the lockout threshold is
bypassed when no last_fail timestamp is stored: the user stays allowed. -/
theorem rate_limit_null_last_fail (username : String) (db : DB) (now : Nat)
    (u : UserRec) (hu : find_user username db = some u)
    (h4 : 4 ≤ u.failed_attempts) (hn : u.last_fail = none) :
    check_rate_limit username db now = true := by
  simp [check_rate_limit, hu, hn, Nat.not_lt.mpr h4]

/-- Witness for C10 at concrete inputs. -/
theorem rate_limit_null_last_fail_witness :
    check_rate_limit "a" ⟨[⟨"a", "h", none, 9, none⟩], [], []⟩ 0 = true :=
  rate_limit_null_last_fail "a" ⟨[⟨"a", "h", none, 9, none⟩], [], []⟩ 0
    ⟨"a", "h", none, 9, none⟩ (by decide) (by decide) rfl

/-- The failure UPDATE rewrites exactly the looked-up user row. -/
theorem find?_record_failure (username : String) (now : Nat)
    (users : List UserRec) (u : UserRec)
    (hu : users.find? (fun w => w.username == username) = some u) :
    (record_failure username now users).find? (fun w => w.username == username) =
      some { u with failed_attempts := u.failed_attempts + 1, last_fail := some now } := by
  unfold record_failure
  rw [find?_map_pres _ _ ?_ users, hu]
  · have hpu : (u.username == username) = true := by simpa using List.find?_some hu
    show some (if u.username == username then
        { u with failed_attempts := u.failed_attempts + 1, last_fail := some now }
      else u) = _
    rw [if_pos hpu]
  · intro x
    show ((if x.username == username then
        { x with failed_attempts := x.failed_attempts + 1, last_fail := some now }
      else x).username == username) = (x.username == username)
    by_cases hx : (x.username == username) = true
    · rw [if_pos hx]
    · rw [if_neg hx]

/-- The success UPDATE rewrites exactly the looked-up user row. -/
theorem find?_record_success (username ip_hash : String)
    (users : List UserRec) (u : UserRec)
    (hu : users.find? (fun w => w.username == username) = some u) :
    (record_success username ip_hash users).find? (fun w => w.username == username) =
      some { u with
        failed_attempts := 0
        last_fail := none
        last_ip_hash := some ip_hash } := by
  unfold record_success
  rw [find?_map_pres _ _ ?_ users, hu]
  · have hpu : (u.username == username) = true := by simpa using List.find?_some hu
    show some (if u.username == username then
        { u with failed_attempts := 0, last_fail := none, last_ip_hash := some ip_hash }
      else u) = _
    rw [if_pos hpu]
  · intro x
    show ((if x.username == username then
        { x with failed_attempts := 0, last_fail := none, last_ip_hash := some ip_hash }
      else x).username == username) = (x.username == username)
    by_cases hx : (x.username == username) = true
    · rw [if_pos hx]
    · rw [if_neg hx]

/-- C4: authenticate_user consults the rate limiter first and fails with
RateLimited leaving the store untouched; on a credential mismatch it
increments failed_attempts, stamps last_fail with now and fails with
InvalidCredentials; on a match it resets the counter, clears last_fail,
stores the hashed client IP and returns the lowercased identity. -/
theorem c4_authenticate_user (username pin client_ip : String) (now : Nat) (db : DB) :
    (check_rate_limit (lower username) db now = false →
      authenticate_user username pin client_ip now db = (.error .rateLimited, db)) ∧
    (∀ u, check_rate_limit (lower username) db now = true →
      find_user (lower username) db = some u →
      verify_pin pin u.pin_hash = false →
      authenticate_user username pin client_ip now db =
        (.error .invalidCredentials,
          { db with users := record_failure (lower username) now db.users }) ∧
      find_user (lower username)
          { db with users := record_failure (lower username) now db.users } =
        some { u with
          failed_attempts := u.failed_attempts + 1
          last_fail := some now }) ∧
    (∀ u, check_rate_limit (lower username) db now = true →
      find_user (lower username) db = some u →
      verify_pin pin u.pin_hash = true →
      authenticate_user username pin client_ip now db =
        (.ok (lower username),
          { db with users := record_success (lower username) (hash_ip client_ip) db.users }) ∧
      find_user (lower username)
          { db with users := record_success (lower username) (hash_ip client_ip) db.users } =
        some { u with
          failed_attempts := 0
          last_fail := none
          last_ip_hash := some (hash_ip client_ip) }) := by
  refine ⟨?_, ?_, ?_⟩
  · intro h
    simp [authenticate_user, h]
  · intro u hrate hu hv
    refine ⟨by simp [authenticate_user, hrate, hu, hv], ?_⟩
    have := find?_record_failure (lower username) now db.users u (by simpa [find_user] using hu)
    simpa [find_user] using this
  · intro u hrate hu hv
    refine ⟨by simp [authenticate_user, hrate, hu, hv], ?_⟩
    have := find?_record_success (lower username) (hash_ip client_ip) db.users u
      (by simpa [find_user] using hu)
    simpa [find_user] using this

/-- Witness for C4: a wrong PIN against the sample user records the
failure and signals InvalidCredentials. -/
theorem c4_witness :
    authenticate_user "Bob" "000000" "5.6.7.8" 1000 sample_db =
      (.error .invalidCredentials,
        { sample_db with users := record_failure (lower "Bob") 1000 sample_db.users }) ∧
    find_user (lower "Bob")
        { sample_db with users := record_failure (lower "Bob") 1000 sample_db.users } =
      some { sample_user with
        failed_attempts := sample_user.failed_attempts + 1
        last_fail := some 1000 } :=
  (c4_authenticate_user "Bob" "000000" "5.6.7.8" 1000 sample_db).2.1 sample_user
    (by decide) (by decide) (by decide)

/-- C6: username uniqueness in create_user is case-insensitive because the
username is lowercased before the existence check and the insert, and
format violations of the username or PIN are rejected as invalid input. -/
theorem c6_create_user (u1 u2 pin1 pin2 ip1 ip2 : String) (db db' : DB)
    (uname : String) :
    (lower u1 = lower u2 → is_valid_pin pin2 = true →
      create_user u1 pin1 ip1 db = .ok (uname, db') →
      create_user u2 pin2 ip2 db' = .error .alreadyExists) ∧
    ((is_valid_username (lower u1) = false ∨ is_valid_pin pin1 = false) →
      create_user u1 pin1 ip1 db = .error .invalidInput) := by
  constructor
  · intro hcase hpin2 hok
    by_cases hv1 : is_valid_username (lower u1) = true
    · by_cases hp1 : is_valid_pin pin1 = true
      · by_cases hf1 : (find_user (lower u1) db).isSome = true
        · simp [create_user, hv1, hp1, hf1] at hok
        · have hf1' : (find_user (lower u1) db).isSome = false := by simpa using hf1
          simp [create_user, hv1, hp1, hf1'] at hok
          obtain ⟨huname, hdb'⟩ := hok
          have hv2 : is_valid_username (lower u2) = true := hcase ▸ hv1
          have hmem : mk_user (lower u1) (hash_pin pin1) (hash_ip ip1) ∈ db'.users := by
            rw [← hdb']
            exact List.mem_append_right _ (List.mem_singleton.mpr rfl)
          have hfind : (find_user (lower u2) db').isSome = true := by
            unfold find_user
            refine List.find?_isSome.mpr ⟨_, hmem, ?_⟩
            show ((mk_user (lower u1) (hash_pin pin1) (hash_ip ip1)).username == lower u2) = true
            show (lower u1 == lower u2) = true
            rw [hcase]
            simp
          simp [create_user, hv2, hpin2, hfind]
      · have hp1' : is_valid_pin pin1 = false := by simpa using hp1
        simp [create_user, hv1, hp1'] at hok
    · have hv1' : is_valid_username (lower u1) = false := by simpa using hv1
      simp [create_user, hv1'] at hok
  · intro h
    rcases h with h | h
    · simp [create_user, h]
    · by_cases hv : is_valid_username (lower u1) = true
      · simp [create_user, hv, h]
      · have hv' : is_valid_username (lower u1) = false := by simpa using hv
        simp [create_user, hv']

/-- Witness for C6: creating Bob then BOB collides case-insensitively, and
a two-letter username is rejected as invalid input. -/
theorem c6_witness :
    create_user "BOB" "654321" "9.9.9.9" sample_db = .error .alreadyExists ∧
    create_user "ab" "123456" "1.1.1.1" ⟨[], [], []⟩ = .error .invalidInput :=
  ⟨(c6_create_user "Bob" "BOB" "123456" "654321" "1.2.3.4" "9.9.9.9"
      ⟨[], [], []⟩ sample_db "bob").1 (by decide) (by decide) (by decide),
   (c6_create_user "ab" "ab" "123456" "123456" "1.1.1.1" "1.1.1.1"
      ⟨[], [], []⟩ ⟨[], [], []⟩ "ab").2 (Or.inl (by decide))⟩

/-- C7: a session looked up right after creation resolves to its username;
once the 24 hour expiry has elapsed the lookup returns none and evicts the
entry from the map; a token absent from the map resolves to none. -/
theorem c7_sessions (username token : String) (now now2 : Nat) (m : SessionMap) :
    (token ≠ "" →
      get_session_user (some (create_session username token now m).1) now
          (create_session username token now m).2 =
        (some username, (create_session username token now m).2)) ∧
    (token ≠ "" → now + session_lifetime < now2 →
      get_session_user (some token) now2 (create_session username token now m).2 =
        (none, ((create_session username token now m).2).filter
          (fun q => !(q.1 == token))) ∧
      (((create_session username token now m).2).filter
          (fun q => !(q.1 == token))).find? (fun p => p.1 == token) = none) ∧
    (∀ t, t ≠ "" → m.find? (fun p => p.1 == t) = none →
      get_session_user (some t) now m = (none, m)) := by
  refine ⟨?_, ?_, ?_⟩
  · intro htok
    have htok' : (token == "") = false := by simpa using htok
    have hexp : ¬ (now + session_lifetime < now) := by omega
    simp [create_session, get_session_user, htok', find?_dict_set, hexp]
  · intro htok hexp
    have htok' : (token == "") = false := by simpa using htok
    refine ⟨?_, find?_filter_ne token _⟩
    simp [create_session, get_session_user, htok', find?_dict_set, hexp]
  · intro t ht hnone
    have ht' : (t == "") = false := by simpa using ht
    simp [get_session_user, ht', hnone]

/-- Witness for C7 at concrete inputs. -/
theorem c7_witness :
    get_session_user (some (create_session "alice" "tok" 0 []).1) 0
        (create_session "alice" "tok" 0 []).2 =
      (some "alice", (create_session "alice" "tok" 0 []).2) ∧
    get_session_user (some "tok") 86401 (create_session "alice" "tok" 0 []).2 =
      (none, ((create_session "alice" "tok" 0 []).2).filter
        (fun q => !(q.1 == "tok"))) ∧
    get_session_user (some "gone") 0 [] = (none, ([] : SessionMap)) :=
  ⟨(c7_sessions "alice" "tok" 0 0 []).1 (by decide),
   ((c7_sessions "alice" "tok" 0 86401 []).2.1 (by decide) (by decide)).1,
   (c7_sessions "alice" "tok" 0 0 []).2.2 "gone" (by decide) rfl⟩

/-- Database with the sample view row already recorded. -/
def c1_db : DB := ⟨[], [], [⟨1, 0, hash_ip "1.2.3.4"⟩]⟩

/-- C1 counterexample: with the composite key already present, the insert
is a no-op yet track_list_view still returns true, not false as claimed. -/
theorem c1_counterexample :
    (⟨1, 0, hash_ip "1.2.3.4"⟩ : ViewRec) ∈ c1_db.views ∧
    track_list_view 1 "1.2.3.4" 0 true c1_db = (true, c1_db) := by decide

/-- C1 amended: track_list_view returns true exactly when the storage layer
raised no error; the duplicate-key insert is a no-op that still returns
true, and a storage error is swallowed, returning false with the store
unchanged. -/
theorem c1_track_view_result (list_id : Nat) (ip : String) (today : Nat)
    (storage_ok : Bool) (db : DB) :
    (track_list_view list_id ip today storage_ok db).1 = storage_ok ∧
    (storage_ok = false →
      track_list_view list_id ip today storage_ok db = (false, db)) ∧
    ((⟨list_id, today, hash_ip ip⟩ : ViewRec) ∈ db.views →
      track_list_view list_id ip today true db = (true, db)) := by
  refine ⟨?_, ?_, ?_⟩
  · cases storage_ok <;> simp [track_list_view, track_view_body]
  · intro h
    subst h
    simp [track_list_view, track_view_body]
  · intro hmem
    simp [track_list_view, track_view_body, insert_or_ignore_view, hmem]

/-- Witness for the amended C1 at concrete inputs. -/
theorem c1_track_view_result_witness :
    track_list_view 1 "9.9.9.9" 3 false sample_db = (false, sample_db) ∧
    track_list_view 1 "1.2.3.4" 0 true c1_db = (true, c1_db) :=
  ⟨(c1_track_view_result 1 "9.9.9.9" 3 false sample_db).2.1 rfl,
   (c1_track_view_result 1 "1.2.3.4" 0 true c1_db).2.2 (by decide)⟩

/-- C5: tracking the same (list, ip, day) twice leaves the store exactly as
after one call, and with one fresh row: both the row count for the list and
its distinct-IP count over any window rise by exactly one, not two. -/
theorem c5_track_view_idempotent (list_id : Nat) (ip : String)
    (today days : Nat) (db : DB)
    (hfresh : ∀ v ∈ db.views, v.list_id = list_id → v.ip_hash ≠ hash_ip ip) :
    track_list_view list_id ip today true
        (track_list_view list_id ip today true db).2 =
      (true, (track_list_view list_id ip today true db).2) ∧
    ((track_list_view list_id ip today true db).2.views.filter
        (fun v => v.list_id == list_id)).length =
      (db.views.filter (fun v => v.list_id == list_id)).length + 1 ∧
    distinct_ip_count (list_window_views list_id today days
        (track_list_view list_id ip today true db).2.views) =
      distinct_ip_count (list_window_views list_id today days db.views) + 1 := by
  have hnotmem : (⟨list_id, today, hash_ip ip⟩ : ViewRec) ∉ db.views := by
    intro hmem
    exact hfresh _ hmem rfl rfl
  have h1 : track_list_view list_id ip today true db =
      (true, { db with views := db.views ++ [⟨list_id, today, hash_ip ip⟩] }) := by
    simp [track_list_view, track_view_body, insert_or_ignore_view, hnotmem]
  refine ⟨?_, ?_, ?_⟩
  · rw [h1]
    have hmem2 : (⟨list_id, today, hash_ip ip⟩ : ViewRec) ∈
        db.views ++ [⟨list_id, today, hash_ip ip⟩] :=
      List.mem_append_right _ (List.mem_singleton.mpr rfl)
    simp [track_list_view, track_view_body, insert_or_ignore_view, hmem2]
  · rw [h1]
    simp [List.filter_append]
  · rw [h1]
    have hsplit : list_window_views list_id today days
        (db.views ++ [⟨list_id, today, hash_ip ip⟩]) =
      list_window_views list_id today days db.views ++ [⟨list_id, today, hash_ip ip⟩] := by
      rw [list_window_views, list_window_views, List.filter_append]
      simp [in_window, Nat.sub_le]
    have hnot : hash_ip ip ∉ (list_window_views list_id today days db.views).map
        (fun v => v.ip_hash) := by
      intro hmem
      obtain ⟨v, hv_mem, hv_eq⟩ := List.mem_map.mp hmem
      have hvf := List.mem_filter.mp hv_mem
      have hcond := hvf.2
      simp only [Bool.and_eq_true, beq_iff_eq] at hcond
      exact hfresh v hvf.1 hcond.1 hv_eq
    show distinct_ip_count _ = _
    rw [hsplit, distinct_ip_count, List.map_append]
    show ((list_window_views list_id today days db.views).map
        (fun v => v.ip_hash) ++ [hash_ip ip]).dedup.length = _
    rw [length_dedup_append_singleton hnot]
    rfl

/-- Witness for C5 starting from the empty store. -/
theorem c5_witness :
    track_list_view 7 "1.2.3.4" 5 true
        (track_list_view 7 "1.2.3.4" 5 true ⟨[], [], []⟩).2 =
      (true, (track_list_view 7 "1.2.3.4" 5 true ⟨[], [], []⟩).2) ∧
    ((track_list_view 7 "1.2.3.4" 5 true ⟨[], [], []⟩).2.views.filter
        (fun v => v.list_id == 7)).length =
      ((⟨[], [], []⟩ : DB).views.filter (fun v => v.list_id == 7)).length + 1 ∧
    distinct_ip_count (list_window_views 7 5 7
        (track_list_view 7 "1.2.3.4" 5 true ⟨[], [], []⟩).2.views) =
      distinct_ip_count (list_window_views 7 5 7 (⟨[], [], []⟩ : DB).views) + 1 :=
  c5_track_view_idempotent 7 "1.2.3.4" 5 7 ⟨[], [], []⟩
    (fun v hv => absurd hv (List.not_mem_nil v))

/-- C8: record_list_view returns false with the store untouched when the
list is missing or private, a storage failure inside view tracking is
absorbed and also yields false with the store untouched, and in every case
only the views relation can change. -/
theorem c8_record_list_view (username slug client_ip : String) (today : Nat)
    (storage_ok : Bool) (db : DB) :
    (get_list username slug db = none →
      record_list_view username slug client_ip today storage_ok db = (false, db)) ∧
    (∀ l, get_list username slug db = some l → l.is_public = false →
      record_list_view username slug client_ip today storage_ok db = (false, db)) ∧
    (storage_ok = false →
      record_list_view username slug client_ip today storage_ok db = (false, db)) ∧
    (record_list_view username slug client_ip today storage_ok db).2.users = db.users ∧
    (record_list_view username slug client_ip today storage_ok db).2.lists = db.lists := by
  refine ⟨?_, ?_, ?_, ?_⟩
  · intro h
    simp [record_list_view, h]
  · intro l hl hpub
    simp [record_list_view, hl, hpub]
  · intro h
    subst h
    unfold record_list_view
    cases hg : get_list username slug db with
    | none => rfl
    | some l =>
      by_cases hpub : l.is_public = true
      · simp [hpub, track_list_view, track_view_body]
      · have hpub' : l.is_public = false := by simpa using hpub
        simp [hpub']
  · unfold record_list_view
    cases hg : get_list username slug db with
    | none => exact ⟨rfl, rfl⟩
    | some l =>
      by_cases hpub : l.is_public = true
      · cases storage_ok <;>
          simp [hpub, track_list_view, track_view_body]
      · have hpub' : l.is_public = false := by simpa using hpub
        simp [hpub']

/-- Witness for C8: a view against an absent list and a storage failure
against a public list both return false and leave the store unchanged. -/
theorem c8_witness :
    record_list_view "alice" "todo" "1.2.3.4" 0 true ⟨[], [], []⟩ =
      (false, (⟨[], [], []⟩ : DB)) ∧
    record_list_view "alice" "todo" "1.2.3.4" 0 false
        ⟨[], [⟨1, "alice", "todo", "T", "c", true, 0, 0⟩], []⟩ =
      (false, (⟨[], [⟨1, "alice", "todo", "T", "c", true, 0, 0⟩], []⟩ : DB)) :=
  ⟨(c8_record_list_view "alice" "todo" "1.2.3.4" 0 true ⟨[], [], []⟩).1 (by decide),
   (c8_record_list_view "alice" "todo" "1.2.3.4" 0 false
      ⟨[], [⟨1, "alice", "todo", "T", "c", true, 0, 0⟩], []⟩).2.2.1 rfl⟩

/-- registry_get on a nonempty registry steps through the head entry. -/
theorem registry_get_cons (q : String × List Handler) (rs : Registry)
    (event : String) :
    registry_get (q :: rs) event =
      if q.1 == event then q.2 else registry_get rs event := by
  by_cases h : (q.1 == event) = true
  · rw [if_pos h, registry_get]
    have hf : List.find? (fun x => x.1 == event) (q :: rs) = some q :=
      List.find?_cons_of_pos _ h
    rw [hf]
  · rw [if_neg h, registry_get, registry_get]
    have hf : List.find? (fun x => x.1 == event) (q :: rs) =
        List.find? (fun x => x.1 == event) rs :=
      List.find?_cons_of_neg _ h
    rw [hf]

/-- register_hook appends the callback to the handler list of its event. -/
theorem registry_get_register (event : String) (cb : Handler) (r : Registry) :
    registry_get (register_hook event cb r) event = registry_get r event ++ [cb] := by
  induction r with
  | nil => simp [register_hook, registry_get]
  | cons p rs ih =>
    by_cases hpe : (p.1 == event) = true
    · have hany : (p :: rs).any (fun q => q.1 == event) = true := by
        simp [hpe]
      have hpe2 : p.1 = event := by simpa using hpe
      simp [register_hook, registry_get_cons, hany, hpe2]
    · have hpe' : (p.1 == event) = false := by simpa using hpe
      by_cases hra : rs.any (fun q => q.1 == event) = true
      · have hany : (p :: rs).any (fun q => q.1 == event) = true := by
          simp [hra]
        have hreg : register_hook event cb rs =
            rs.map (fun q => if q.1 == event then (q.1, q.2 ++ [cb]) else q) := by
          rw [register_hook, if_pos hra]
        rw [hreg] at ih
        simp only [register_hook] at ih ⊢
        rw [if_pos hany, List.map_cons, if_neg hpe, registry_get_cons,
          registry_get_cons, if_neg hpe, if_neg hpe]
        exact ih
      · have hra' : rs.any (fun q => q.1 == event) = false := by
          cases h : rs.any (fun q => q.1 == event)
          · rfl
          · exact absurd h hra
        have hany : ((p :: rs).any (fun q => q.1 == event)) = false := by
          simp [hpe', hra']
        have hreg : register_hook event cb rs = rs ++ [(event, [cb])] := by
          rw [register_hook, if_neg hra]
        rw [hreg] at ih
        rw [register_hook, if_neg (by simp [hany]), List.cons_append,
          registry_get_cons, registry_get_cons, if_neg hpe, if_neg hpe]
        exact ih

/-- The instrumented handler loop computes the plain loop and counts one
invocation per handler, from any starting count. -/
theorem run_handlers_count_eq (hs : List Handler) :
    ∀ d n, hs.foldl (fun acc h => (handler_step acc.1 h, acc.2 + 1)) (d, n) =
      (run_handlers hs d, n + hs.length) := by
  induction hs with
  | nil =>
    intro d n
    simp [run_handlers]
  | cons h hs ih =>
    intro d n
    simp only [List.foldl_cons, List.length_cons]
    rw [ih]
    have hrh : run_handlers (h :: hs) d = run_handlers hs (handler_step d h) := rfl
    have harith : n + 1 + hs.length = n + (hs.length + 1) := by omega
    rw [hrh, harith]

/-- C9: handler registration appends to the per-event list, emit_event runs
exactly the registered handlers of its event left to right, a handler that
raises leaves the data unchanged while the remaining handlers still run,
every registered handler is invoked exactly once, and the emitting
operation always receives a result (run_handlers is a total function). -/
theorem c9_plugin_hooks :
    (∀ event cb r, registry_get (register_hook event cb r) event =
      registry_get r event ++ [cb]) ∧
    (∀ r event d, emit_event r event d = run_handlers (registry_get r event) d) ∧
    (∀ hs1 h hs2 d, run_handlers (hs1 ++ h :: hs2) d =
      run_handlers hs2 (handler_step (run_handlers hs1 d) h)) ∧
    (∀ hs1 h hs2 d, h (run_handlers hs1 d) = .error () →
      run_handlers (hs1 ++ h :: hs2) d = run_handlers (hs1 ++ hs2) d) ∧
    (∀ hs d, run_handlers_count hs d = (run_handlers hs d, hs.length)) := by
  refine ⟨registry_get_register, ?_, ?_, ?_, ?_⟩
  · intro r event d
    rw [emit_event, registry_get]
    cases hf : r.find? (fun p => p.1 == event) with
    | none => rfl
    | some p => rfl
  · intro hs1 h hs2 d
    simp [run_handlers, List.foldl_append]
  · intro hs1 h hs2 d herr
    have hstep : handler_step (run_handlers hs1 d) h = run_handlers hs1 d := by
      simp [handler_step, herr]
    calc run_handlers (hs1 ++ h :: hs2) d
        = run_handlers hs2 (handler_step (run_handlers hs1 d) h) := by
          simp [run_handlers, List.foldl_append]
      _ = run_handlers hs2 (run_handlers hs1 d) := by rw [hstep]
      _ = run_handlers (hs1 ++ hs2) d := by
          simp [run_handlers, List.foldl_append]
  · intro hs d
    rw [run_handlers_count, run_handlers_count_eq]
    simp

/-- Witness for C9: a raising first handler does not prevent the second
handler from being applied to the unchanged data. -/
theorem c9_witness :
    run_handlers ([] ++ (fun _ => .error ()) ::
        [fun _ => Except.ok (some [("seo", "on")])]) [("user", "alice")] =
      run_handlers ([] ++ [fun _ => Except.ok (some [("seo", "on")])])
        [("user", "alice")] :=
  c9_plugin_hooks.2.2.2.1 [] (fun _ => .error ())
    [fun _ => Except.ok (some [("seo", "on")])] [("user", "alice")] rfl

/-- First public list of the C3 counterexample, created at time 10. -/
def c3_l1 : ListRec := ⟨1, "alice", "a", "A", "c", true, 10, 10⟩

/-- Second public list of the C3 counterexample, created at time 20. -/
def c3_l2 : ListRec := ⟨2, "bob", "b", "B", "c", true, 20, 20⟩

/-- Database for the C3 counterexample: both lists have exactly one
distinct viewer inside the window. -/
def c3_db : DB := ⟨[], [c3_l1, c3_l2], [⟨1, 5, "ha"⟩, ⟨2, 5, "hb"⟩]⟩

/-- C3 counterexample: the two rows tie on view_count and the newer list
(created_at 20 over 10) comes second, not first: the ORDER BY clause has no
recency tie-break, so ties stay in grouping order (ascending list id). -/
theorem c3_counterexample :
    get_trending_lists c3_db 5 7 10 =
      [trending_row_of c3_db 5 7 c3_l1, trending_row_of c3_db 5 7 c3_l2] ∧
    (trending_row_of c3_db 5 7 c3_l1).view_count =
      (trending_row_of c3_db 5 7 c3_l2).view_count ∧
    c3_l1.created_at < c3_l2.created_at := by decide

/-- C3 amended: get_trending_lists returns at most limit rows, ordered by
view_count descending; every row arises from a public list with at least
one view row in the window and carries its distinct-IP count, which is
positive; and when limit covers all qualifying lists, every public list
with a window view is represented.  Ties on view_count follow grouping
order (ascending list id), not recency. -/
theorem c3_trending (db : DB) (today days limit : Nat) :
    (get_trending_lists db today days limit).length ≤ limit ∧
    List.Sorted trending_le (get_trending_lists db today days limit) ∧
    (∀ row ∈ get_trending_lists db today days limit, ∃ l,
      l ∈ db.lists ∧ l.is_public = true ∧
      list_window_views l.id today days db.views ≠ [] ∧
      row = trending_row_of db today days l ∧ 0 < row.view_count) ∧
    ((trending_groups db today days).length ≤ limit →
      ∀ l ∈ db.lists, l.is_public = true →
        list_window_views l.id today days db.views ≠ [] →
        trending_row_of db today days l ∈ get_trending_lists db today days limit) := by
  refine ⟨List.length_take_le _ _, ?_, ?_, ?_⟩
  · exact List.Pairwise.sublist (List.take_sublist _ _)
      (List.sorted_insertionSort trending_le _)
  · intro row hrow
    have hmem : row ∈ (trending_groups db today days).insertionSort trending_le :=
      (List.take_sublist _ _).subset hrow
    have hmem2 : row ∈ trending_groups db today days := by
      rw [List.mem_insertionSort] at hmem
      exact hmem
    obtain ⟨l, hl, hrow_eq⟩ := List.mem_map.mp hmem2
    have hlf := List.mem_filter.mp hl
    have hcond := hlf.2
    simp only [Bool.and_eq_true] at hcond
    have hne : list_window_views l.id today days db.views ≠ [] := by
      intro hnil
      rw [hnil] at hcond
      simp at hcond
    refine ⟨l, hlf.1, hcond.1, hne, hrow_eq.symm, ?_⟩
    rw [← hrow_eq]
    show 0 < distinct_ip_count (list_window_views l.id today days db.views)
    rw [distinct_ip_count]
    have hmapne : (list_window_views l.id today days db.views).map
        (fun v => v.ip_hash) ≠ [] := by
      simpa using hne
    have hdedupne : ((list_window_views l.id today days db.views).map
        (fun v => v.ip_hash)).dedup ≠ [] := by
      rw [Ne, List.dedup_eq_nil]
      exact hmapne
    exact List.length_pos.mpr hdedupne
  · intro hlen l hl hpub hne
    have hmemg : trending_row_of db today days l ∈ trending_groups db today days := by
      rw [trending_groups]
      refine List.mem_map.mpr ⟨l, ?_, rfl⟩
      refine List.mem_filter.mpr ⟨hl, ?_⟩
      simp [hpub, hne]
    have hmems : trending_row_of db today days l ∈
        (trending_groups db today days).insertionSort trending_le := by
      rw [List.mem_insertionSort]
      exact hmemg
    have hall : ((trending_groups db today days).insertionSort trending_le).take limit
        = (trending_groups db today days).insertionSort trending_le := by
      apply List.take_of_length_le
      rw [List.length_insertionSort]
      exact hlen
    rw [get_trending_lists, hall]
    exact hmems

/-- Witness for the amended C3 at the concrete two-list database. -/
theorem c3_witness :
    trending_row_of c3_db 5 7 c3_l1 ∈ get_trending_lists c3_db 5 7 10 :=
  (c3_trending c3_db 5 7 10).2.2.2 (by decide) c3_l1 (by decide) (by decide)
    (by decide)

end Listky
